import Mathlib

/-!
Shallow embedding of the DS14 content-based movie recommender:
`src/recsys/base.py` (class ContentBaseRecSys), `src/recsys/utils.py`
(the `parse` field parser) and `src/api/omdb.py` (the poster batch
lookup).  Machine reals (the similarity scores read from the distance
CSV) are modelled as rationals; the claims below only compare scores.
Python exceptions are modelled with `Option`/`Except`: a `none`/`.error`
result is a call that raised.
-/

namespace DS14

/-- One row of the movies table (`self.movies`), keyed by the integer
`id` index.  `genres` holds the list produced by `parse` at load time
(`_init_movies`); `cast` holds the `name` fields of the records of the
serialized cast column (the code reads them back with `eval` at each use
site); `production_countries` is kept as the raw serialized string,
because every filter tests membership with Python's `in` operator on
that string, which is a substring test.  `homepage` and `overview` are
`Option` so that a null (NaN) cell is distinguished from a string. -/
structure Movie where
  id : Nat
  title : String
  genres : List String
  cast : List String
  production_countries : String
  homepage : Option String
  original_title : String
  overview : Option String
  deriving Repr, DecidableEq

/-- The engine state built by `ContentBaseRecSys.__init__`: the movies
table in CSV load order, and the distance matrix as one
`(row id, row)` entry per id, each row a list of `(column id, score)`
pairs in column storage order. -/
structure RecSys where
  movies : List Movie
  distance : List (Nat × List (Nat × ℚ))
  deriving Repr, DecidableEq

/-- `self.movies.loc[i]`: the row with id `i` (ids are a unique index;
`none` models the KeyError raised when the id is absent). -/
def movieById (rs : RecSys) (i : Nat) : Option Movie :=
  rs.movies.find? (fun m => m.id == i)

/-- `self.distance.loc[i]`: the similarity row of id `i` (`none` models
the KeyError raised when the id is absent). -/
def distanceRow (rs : RecSys) (i : Nat) : Option (List (Nat × ℚ)) :=
  (rs.distance.find? (fun r => r.1 == i)).map (fun r => r.2)

/-- Insert a scored id into an ascending-by-score list, placing it
before the first element of larger-or-equal score, so that among equal
scores earlier (original) elements stay first: the behaviour of a
stable ascending sort. -/
def insertAsc (p : Nat × ℚ) : List (Nat × ℚ) → List (Nat × ℚ)
  | [] => [p]
  | q :: rest => if p.2 ≤ q.2 then p :: q :: rest else q :: insertAsc p rest

/-- Stable ascending sort of a similarity row by score. -/
def sortAsc : List (Nat × ℚ) → List (Nat × ℚ)
  | [] => []
  | p :: rest => insertAsc p (sortAsc rest)

/-- `Series.sort_values(ascending=False)` (base.py line 127): pandas
computes a stable ascending argsort of the row and reverses it
(`nargsort` reverses the ascending indexer for descending order), so
equal scores end up in reverse storage order. -/
def sortDesc (l : List (Nat × ℚ)) : List (Nat × ℚ) :=
  (sortAsc l).reverse

/-- Python slice `l[1 : stop]` with a possibly negative `stop`
(base.py line 143: `distances.index[1:top_k + 1]`). -/
def pySlice1 {α : Type} (l : List α) (stop : Int) : List α :=
  (l.take (if stop < 0 then max ((l.length : Int) + stop) 0
           else min stop (l.length : Int)).toNat).drop 1

/-- Does `hay` start with `needle`? -/
def charsStart (needle hay : List Char) : Bool :=
  match needle, hay with
  | [], _ => true
  | _ :: _, [] => false
  | c :: cs, h :: hs => c == h && charsStart cs hs

/-- Is `needle` a contiguous run of `hay`? -/
def charsInfix (needle : List Char) : List Char → Bool
  | [] => needle.isEmpty
  | h :: hs => charsStart needle (h :: hs) || charsInfix needle hs

/-- Python `needle in hay` on strings: substring test. -/
def strIn (needle hay : String) : Bool :=
  charsInfix needle.data hay.data

/-- `any(genre in row['genres'] for genre in genres)`. -/
def genreMatch (genres : List String) (m : Movie) : Bool :=
  genres.any (fun g => m.genres.contains g)

/-- `any(person['name'] in actor for person in eval(row['cast']))`,
with the cast names already extracted in `Movie.cast`. -/
def actorMatch (actor : List String) (m : Movie) : Bool :=
  m.cast.any (fun p => actor.contains p)

/-- `any(country_i in row['production_countries'] for country_i in
country)`: the `in` here is a substring test on the raw serialized
country column (the code never parses it at these call sites). -/
def countryMatch (country : List String) (m : Movie) : Bool :=
  country.any (fun c => strIn c m.production_countries)

/-- `filter_movies_by_genre` (base.py 158-172): ids of the movies, in
load order, whose genre list meets the requested genres. -/
def filter_movies_by_genre (rs : RecSys) (genres : List String) : List Nat :=
  (rs.movies.filter (fun m => genreMatch genres m)).map (fun m => m.id)

/-- `filter_movies_by_actor` (base.py 174-180). -/
def filter_movies_by_actor (rs : RecSys) (actor : List String) : List Nat :=
  (rs.movies.filter (fun m => actorMatch actor m)).map (fun m => m.id)

/-- `filter_movies_by_genre_and_actor` (base.py 182-199): note the
disjunction — a movie is kept when it matches the genres OR the cast. -/
def filter_movies_by_genre_and_actor (rs : RecSys) (genres actor : List String) : List Nat :=
  (rs.movies.filter (fun m => genreMatch genres m || actorMatch actor m)).map (fun m => m.id)

/-- `filter_movies_by_country` (base.py 201-215). -/
def filter_movies_by_country (rs : RecSys) (country : List String) : List Nat :=
  (rs.movies.filter (fun m => countryMatch country m)).map (fun m => m.id)

/-- `filter_movies_by_genre_and_country` (base.py 217-234): again a
disjunction (genre OR country). -/
def filter_movies_by_genre_and_country (rs : RecSys) (genres country : List String) : List Nat :=
  (rs.movies.filter (fun m => genreMatch genres m || countryMatch country m)).map (fun m => m.id)

/-- Python truthiness of the `filtered_movies` argument of
`get_top_k_movies`: `None` and the empty list are both falsy. -/
def truthyList (o : Option (List Nat)) : Bool :=
  match o with
  | some (_ :: _) => true
  | _ => false

/-- The list comprehensions of base.py lines 131, 135 and 139:
`[index for index in distances.index if <pred>(movies.loc[index])]`.
A lookup of an id absent from the movies table raises (KeyError),
modelled as `none`. -/
def filteredIndices (rs : RecSys) (pred : Movie → Bool) :
    List (Nat × ℚ) → Option (List Nat)
  | [] => some []
  | p :: rest => do
      let m ← movieById rs p.1
      let tail ← filteredIndices rs pred rest
      some (if pred m then p.1 :: tail else tail)

/-- Lines 128-129 of base.py: `if filtered_movies:` then keep the rows
whose index is in the `filtered_movies` list (the `isin` step); the
check is Python truthiness, so `None` and an empty list both skip it. -/
def isinStage (filtered_movies : Option (List Nat)) (d : List (Nat × ℚ)) :
    List (Nat × ℚ) :=
  if truthyList filtered_movies then
    d.filter (fun p => (filtered_movies.getD []).contains p.1)
  else d

/-- One per-dimension re-filter of base.py lines 130-142 (the genre,
actor and country blocks all have this shape): when the filter argument
is truthy, build the comprehension of passing indices and keep the rows
whose index `isin` it. -/
def dimStage (rs : RecSys) (filterArg : List String) (pred : Movie → Bool)
    (d : List (Nat × ℚ)) : Option (List (Nat × ℚ)) :=
  if filterArg.isEmpty then some d
  else do
    let fi ← filteredIndices rs pred d
    some (d.filter (fun p => fi.contains p.1))

/-- Lines 127-142 of base.py: the similarity row of `movie_index`,
sorted by score descending, then narrowed by the `filtered_movies`
`isin` step and by the per-dimension genre / actor / country
re-filters.  This is the value of the local `distances` variable just
before the final slice. -/
def rankedCandidates (rs : RecSys) (movie_index : Nat)
    (filtered_movies : Option (List Nat)) (genres actor country : List String) :
    Option (List (Nat × ℚ)) := do
  let row ← distanceRow rs movie_index
  let d1 := isinStage filtered_movies (sortDesc row)
  let d2 ← dimStage rs genres (genreMatch genres) d1
  let d3 ← dimStage rs actor (actorMatch actor) d2
  dimStage rs country (countryMatch country) d3

/-- `get_top_k_movies` (base.py 111-144): the surviving candidate row
is sliced with `distances.index[1:top_k + 1]`. -/
def get_top_k_movies (rs : RecSys) (movie_index : Nat) (top_k : Int)
    (filtered_movies : Option (List Nat)) (genres actor country : List String) :
    Option (List Nat) :=
  (rankedCandidates rs movie_index filtered_movies genres actor country).map
    (fun ds => pySlice1 (ds.map (fun p => p.1)) (top_k + 1))

/-- Line 100 of base.py:
`self.movies[self.movies['title'] == title].index[0]` — the id of the
first row (in load order) whose title equals the query; `none` models
the IndexError raised when no row matches. -/
def resolveTitle (rs : RecSys) (title : String) : Option Nat :=
  ((rs.movies.filter (fun m => m.title == title)).map (fun m => m.id)).head?

/-- Lines 101-106 of base.py: the conditional expression choosing the
`filtered_movies` pre-filter; `none` models the final `else None`. -/
def selectFiltered (rs : RecSys) (genres actor country : List String) :
    Option (List Nat) :=
  if !genres.isEmpty && !country.isEmpty then
    some (filter_movies_by_genre_and_country rs genres country)
  else if !genres.isEmpty && !actor.isEmpty then
    some (filter_movies_by_genre_and_actor rs genres actor)
  else if !genres.isEmpty then some (filter_movies_by_genre rs genres)
  else if !actor.isEmpty then some (filter_movies_by_actor rs actor)
  else if !country.isEmpty then some (filter_movies_by_country rs country)
  else none

/-- `recommendation` (base.py 81-109).  The genre / actor / country
arguments default to `None` in the source and are only ever tested for
truthiness and iterated, so `None` and an empty set behave alike and
both are modelled as `[]`.  The final line maps the surviving ids back
to titles (`movies.loc[top_movies_indices, 'title']`). -/
def recommendation (rs : RecSys) (title : String) (top_k : Int)
    (genres actor country : List String) : Option (List String) := do
  let movie_index ← resolveTitle rs title
  let top ← get_top_k_movies rs movie_index top_k
    (selectFiltered rs genres actor country) genres actor country
  top.mapM (fun i => (movieById rs i).map (fun m => m.title))

/-- `update_recommendations` (base.py 146-148): a plain delegation to
`recommendation` with the same arguments. -/
def update_recommendations (rs : RecSys) (new_title : String) (top_k : Int)
    (genres actor country : List String) : Option (List String) :=
  recommendation rs new_title top_k genres actor country

/-- `get_overview` (base.py 269-283): the overview cell of the first
row matching the title; `some s` is a Python string, `none` is Python
`None`.  When no row matches, the IndexError branch returns the empty
string; when the cell is NaN, the function returns `None`. -/
def get_overview (rs : RecSys) (movie_title : String) : Option String :=
  match ((rs.movies.filter (fun m => m.title == movie_title)).map
      (fun m => m.overview)).head? with
  | Option.none => some ""
  | some ov =>
    match ov with
    | some o => some o
    | Option.none => Option.none

/-- Does the movie with id `j` satisfy `pred`?  (False when the id is
absent from the table; the monadic pipeline only applies this where the
lookup succeeds.) -/
def idMatches (rs : RecSys) (pred : Movie → Bool) (j : Nat) : Bool :=
  match movieById rs j with
  | some m => pred m
  | Option.none => false


/-! ### `src/recsys/utils.py`: the serialized-field parser -/

/-- A Python literal value, as produced by `ast.literal_eval` on the
catalog's serialized columns (single-quoted strings, integers, lists
and dicts). -/
inductive PyVal where
  | pyStr (s : String)
  | pyInt (n : Int)
  | pyList (l : List PyVal)
  | pyDict (l : List (PyVal × PyVal))
  deriving Repr

mutual

/-- Structural equality of Python literal values (Python `==` on the
shapes `parse` can meet). -/
def pyBeq : PyVal → PyVal → Bool
  | PyVal.pyStr a, PyVal.pyStr b => a == b
  | PyVal.pyInt a, PyVal.pyInt b => a == b
  | PyVal.pyList a, PyVal.pyList b => pyBeqList a b
  | PyVal.pyDict a, PyVal.pyDict b => pyBeqKvs a b
  | _, _ => false

/-- Elementwise equality of literal lists. -/
def pyBeqList : List PyVal → List PyVal → Bool
  | [], [] => true
  | a :: as, b :: bs => pyBeq a b && pyBeqList as bs
  | _, _ => false

/-- Elementwise equality of key-value lists. -/
def pyBeqKvs : List (PyVal × PyVal) → List (PyVal × PyVal) → Bool
  | [], [] => true
  | (k1, v1) :: as, (k2, v2) :: bs => pyBeq k1 k2 && pyBeq v1 v2 && pyBeqKvs as bs
  | _, _ => false

end

instance : BEq PyVal := ⟨pyBeq⟩

/-- The exceptions relevant to `parse`: `valueOrSyntaxError` is what
`ast.literal_eval` raises on input it cannot evaluate (ValueError or
SyntaxError — the two classes `parse` catches); `typeError` and
`keyError` arise from `item['name']` when an item is not a dict or
lacks the key (and are not caught). -/
inductive PyErr where
  | valueOrSyntaxError
  | typeError
  | keyError
  deriving Repr, DecidableEq

/-- The single-quote character. -/
def quoteChar : Char := Char.ofNat 39

/-- The opening curly bracket. -/
def openCurly : Char := Char.ofNat 123

/-- The closing curly bracket. -/
def closeCurly : Char := Char.ofNat 125

/-- Skip blanks. -/
def skipWs : List Char → List Char
  | c :: rest => if c = ' ' then skipWs rest else c :: rest
  | [] => []

/-- Scan a single-quoted string literal body up to its closing quote. -/
def scanStr : List Char → Option (String × List Char)
  | [] => Option.none
  | c :: rest =>
    if c = quoteChar then some ("", rest)
    else
      match scanStr rest with
      | some (s, r) => some (String.mk (c :: s.data), r)
      | Option.none => Option.none

/-- Scan a run of digits into a number. -/
def scanNat : List Char → Nat → Nat × List Char
  | c :: rest, acc =>
    if c.isDigit then scanNat rest (acc * 10 + (c.toNat - 48)) else (acc, c :: rest)
  | [], acc => (acc, [])

mutual

/-- One literal value: a string, a nonnegative integer, a list or a
dict.  The `fuel` argument bounds recursion depth; `evalLiteral` below
supplies more fuel than any input of that length can consume. -/
def scanVal : Nat → List Char → Option (PyVal × List Char)
  | 0, _ => Option.none
  | fuel + 1, input =>
    match skipWs input with
    | [] => Option.none
    | c :: rest =>
      if c = quoteChar then
        (scanStr rest).map (fun p => (PyVal.pyStr p.1, p.2))
      else if c.isDigit then
        let p := scanNat (c :: rest) 0
        some (PyVal.pyInt (Int.ofNat p.1), p.2)
      else if c = '[' then
        match skipWs rest with
        | ']' :: r2 => some (PyVal.pyList [], r2)
        | r2 => (scanListRest fuel r2).map (fun p => (PyVal.pyList p.1, p.2))
      else if c = openCurly then
        match skipWs rest with
        | d :: r2 =>
          if d = closeCurly then some (PyVal.pyDict [], r2)
          else (scanDictRest fuel (d :: r2)).map (fun p => (PyVal.pyDict p.1, p.2))
        | [] => Option.none
      else Option.none

/-- The comma-separated items of a list literal, up to `]`. -/
def scanListRest : Nat → List Char → Option (List PyVal × List Char)
  | 0, _ => Option.none
  | fuel + 1, input => do
    let (v, r) ← scanVal fuel input
    match skipWs r with
    | c :: r2 =>
      if c = ',' then do
        let (vs, r3) ← scanListRest fuel r2
        some (v :: vs, r3)
      else if c = ']' then some ([v], r2)
      else Option.none
    | [] => Option.none

/-- The comma-separated `key: value` pairs of a dict literal. -/
def scanDictRest : Nat → List Char → Option (List (PyVal × PyVal) × List Char)
  | 0, _ => Option.none
  | fuel + 1, input => do
    let (k, r) ← scanVal fuel input
    match skipWs r with
    | c :: r2 =>
      if c = ':' then do
        let (v, r3) ← scanVal fuel r2
        match skipWs r3 with
        | d :: r4 =>
          if d = ',' then do
            let (kvs, r5) ← scanDictRest fuel r4
            some ((k, v) :: kvs, r5)
          else if d = closeCurly then some ([(k, v)], r4)
          else Option.none
        | [] => Option.none
      else Option.none
    | [] => Option.none

end

/-- Modelled after `ast.literal_eval` on the literal subset the catalog
columns use.  It returns the value when the whole input is one literal
and fails otherwise; on such inputs the only exceptions
`ast.literal_eval` raises are ValueError and SyntaxError. -/
def literal_eval (s : String) : Except PyErr PyVal :=
  match scanVal (2 * s.length + 4) s.data with
  | some (v, r) => if (skipWs r).isEmpty then Except.ok v else Except.error PyErr.valueOrSyntaxError
  | Option.none => Except.error PyErr.valueOrSyntaxError

/-- `d['name']` on a dict literal: with duplicate keys the last binding
wins, as in a Python dict display. -/
def dictGet (kvs : List (PyVal × PyVal)) (k : PyVal) : Option PyVal :=
  (kvs.reverse.find? (fun p => p.1 == k)).map (fun p => p.2)

/-- `[item['name'] for item in parsed_list]` over a list literal: a
non-dict item raises TypeError, a dict without the key raises KeyError;
neither is caught by `parse`. -/
def extractNames : List PyVal → Except PyErr (List PyVal)
  | [] => Except.ok []
  | PyVal.pyDict kvs :: rest =>
    match dictGet kvs (PyVal.pyStr "name") with
    | some v => (extractNames rest).map (fun tl => v :: tl)
    | Option.none => Except.error PyErr.keyError
  | _ :: _ => Except.error PyErr.typeError

/-- `parse` (utils.py 5-30).  `Option.none` input models the `None`
argument; an `.error` result is an exception escaping `parse` (its
`except` clause catches only ValueError and SyntaxError, i.e. only
`literal_eval` failures).  When the evaluated literal is not a list,
the comprehension iterates it: a string yields its characters and a
dict its keys, so any nonempty non-list iterable reaches `item['name']`
on a non-dict and raises TypeError, while the empty string and the
empty dict yield `[]`; an int is not iterable and also raises
TypeError. -/
def parse (parsed_column : Option String) : Except PyErr (List PyVal) :=
  match parsed_column with
  | Option.none => Except.ok []
  | some s =>
    match literal_eval s with
    | Except.error _ => Except.ok []
    | Except.ok (PyVal.pyList l) => extractNames l
    | Except.ok (PyVal.pyStr t) =>
      if t.isEmpty then Except.ok [] else Except.error PyErr.typeError
    | Except.ok (PyVal.pyDict kvs) =>
      if kvs.isEmpty then Except.ok [] else Except.error PyErr.typeError
    | Except.ok (PyVal.pyInt _) => Except.error PyErr.typeError

/-! ### `src/api/omdb.py`: the poster batch lookup -/

/-- The outcome of `requests.get` for one title: either the call (or
the decoding of its body) raises, or it yields a response with a status
code and, when the JSON body has a `Poster` key, that key's value. -/
inductive HttpOutcome where
  | raises
  | response (status : Nat) (poster : Option String)
  deriving Repr, DecidableEq

/-- `OMDBApi._get_image_path` (omdb.py 39-58), over an environment `ω`
giving each title's HTTP outcome: a 200 response with a `Poster` key
yields that value, any other response yields `None`; a raising call
propagates (there is no try/except in the source). -/
def get_image_path (ω : String → HttpOutcome) (title : String) :
    Except Unit (Option String) :=
  match ω title with
  | HttpOutcome.raises => Except.error ()
  | HttpOutcome.response status poster =>
    if status == 200 then
      match poster with
      | some p => Except.ok (some p)
      | Option.none => Except.ok Option.none
    else Except.ok Option.none

/-- The placeholder image URL of omdb.py line 75. -/
def placeholderUrl : String :=
  "https://opros.pravovojstatus.ru/wp-content/plugins/Super-Quiz/admin/gifs/loading.gif"

/-- `OMDBApi.get_posters` (omdb.py 60-76): one lookup per title in
order; a falsy path (`None` or the empty string) is replaced by the
placeholder; an exception from any lookup propagates out of the whole
batch. -/
def get_posters (ω : String → HttpOutcome) : List String → Except Unit (List String)
  | [] => Except.ok []
  | t :: rest =>
    match get_image_path ω t with
    | Except.error e => Except.error e
    | Except.ok path =>
      match get_posters ω rest with
      | Except.error e => Except.error e
      | Except.ok tail =>
        Except.ok ((match path with
          | some p => if p.isEmpty then placeholderUrl else p
          | Option.none => placeholderUrl) :: tail)


/-- The per-title value the batch loop appends (omdb.py 71-75), for a
lookup that returns: the poster when truthy, the placeholder when the
response had no usable poster. -/
def posterOf (ω : String → HttpOutcome) (t : String) : String :=
  match get_image_path ω t with
  | Except.ok (some p) => if p.isEmpty then placeholderUrl else p
  | _ => placeholderUrl

/-! ### Concrete fixtures -/

/-- A movie row with the fields the claims exercise. -/
def mov (i : Nat) (t : String) (gs : List String) (pc : String)
    (ov : Option String) : Movie :=
  { id := i, title := t, genres := gs, cast := [], production_countries := pc,
    homepage := Option.none, original_title := t, overview := ov }

/-- Two movies whose similarity scores tie: row 1 scores both ids at 1,
so the descending sort puts id 2 (later storage position) first. -/
def exTie : RecSys :=
  { movies := [mov 1 "A" [] "[]" (some "a"), mov 2 "B" [] "[]" (some "b")],
    distance := [(1, [(1, 1), (2, 1)]), (2, [(1, 1), (2, 1)])] }

/-- Three movies; ids 2 and 3 tie at score 1 in row 1. -/
def exTriple : RecSys :=
  { movies := [mov 1 "A" [] "[]" (some "a"), mov 2 "B" [] "[]" (some "b"),
               mov 3 "C" [] "[]" (some "c")],
    distance := [(1, [(1, 10), (2, 1), (3, 1)])] }

/-- Genre/country fixture: ids 1 and 2 are comedies without country
`X`; id 3 has country `X` but no genre. -/
def exGC : RecSys :=
  { movies := [mov 1 "A" ["Comedy"] "[]" (some "a"),
               mov 2 "B" ["Comedy"] "[]" (some "b"),
               mov 3 "C" [] "[\x7b\x27name\x27: \x27X\x27\x7d]" (some "c")],
    distance := [(1, [(1, 9), (2, 5), (3, 3)])] }

/-- The reference movie (id 1) has no genre, so a genre filter drops it
from the candidate row before the position slice. -/
def exGenreOnly : RecSys :=
  { movies := [mov 1 "A" [] "[]" (some "a"), mov 2 "B" ["Comedy"] "[]" (some "b")],
    distance := [(1, [(1, 9), (2, 5)])] }

/-- A well-behaved pair: the self-similarity of id 1 strictly exceeds
every other score of its row. -/
def exStrict : RecSys :=
  { movies := [mov 1 "A" [] "[]" (some "a"), mov 2 "B" [] "[]" (some "b")],
    distance := [(1, [(1, 9), (2, 5)])] }

/-- Two movies sharing the title `T`: resolution must pick id 1, the
first in load order. -/
def exDup : RecSys :=
  { movies := [mov 1 "T" [] "[]" (some "t1"), mov 2 "T" [] "[]" (some "t2")],
    distance := [(1, [(1, 9), (2, 5)]), (2, [(1, 5), (2, 9)])] }

/-- One movie whose stored synopsis is null. -/
def exNull : RecSys :=
  { movies := [mov 1 "N" [] "[]" Option.none],
    distance := [(1, [(1, 1)])] }

/-- An HTTP environment that never raises: title `A` has a poster,
every other lookup yields a posterless 404. -/
def omegaOk : String → HttpOutcome :=
  fun t => if t == "A" then HttpOutcome.response 200 (some "http://poster/a")
           else HttpOutcome.response 404 Option.none

/-! ### Sorting lemmas -/

theorem insertAsc_perm (p : Nat × ℚ) (l : List (Nat × ℚ)) :
    List.Perm (insertAsc p l) (p :: l) := by
  induction l with
  | nil => simp [insertAsc]
  | cons q rest ih =>
    by_cases h : p.2 ≤ q.2
    · simp [insertAsc, h]
    · simp only [insertAsc, if_neg h]
      exact (List.Perm.cons q ih).trans (List.Perm.swap p q rest)

theorem sortAsc_perm (l : List (Nat × ℚ)) : List.Perm (sortAsc l) l := by
  induction l with
  | nil => simp [sortAsc]
  | cons p rest ih =>
    exact (insertAsc_perm p (sortAsc rest)).trans (List.Perm.cons p ih)

theorem mem_sortAsc {x : Nat × ℚ} {l : List (Nat × ℚ)} :
    x ∈ sortAsc l ↔ x ∈ l :=
  (sortAsc_perm l).mem_iff

theorem pairwise_insertAsc {p : Nat × ℚ} {l : List (Nat × ℚ)}
    (h : l.Pairwise (fun a b => a.2 ≤ b.2)) :
    (insertAsc p l).Pairwise (fun a b => a.2 ≤ b.2) := by
  induction l with
  | nil => simp [insertAsc]
  | cons q rest ih =>
    rcases List.pairwise_cons.1 h with ⟨hq, hrest⟩
    by_cases hle : p.2 ≤ q.2
    · simp only [insertAsc, if_pos hle]
      refine List.pairwise_cons.2 ⟨?_, h⟩
      intro b hb
      rcases List.mem_cons.1 hb with rfl | hb
      · exact hle
      · exact le_trans hle (hq b hb)
    · simp only [insertAsc, if_neg hle]
      refine List.pairwise_cons.2 ⟨?_, ih hrest⟩
      intro b hb
      rcases List.mem_cons.1 ((insertAsc_perm p rest).mem_iff.1 hb) with rfl | hb
      · exact le_of_not_le hle
      · exact hq b hb

theorem sortAsc_pairwise (l : List (Nat × ℚ)) :
    (sortAsc l).Pairwise (fun a b => a.2 ≤ b.2) := by
  induction l with
  | nil => simp [sortAsc]
  | cons p rest ih => exact pairwise_insertAsc ih

theorem sortDesc_pairwise (l : List (Nat × ℚ)) :
    (sortDesc l).Pairwise (fun a b => b.2 ≤ a.2) := by
  unfold sortDesc
  exact List.pairwise_reverse.2 (sortAsc_pairwise l)

/-- In the descending-sorted row, an id whose every entry scores
strictly above every other entry, and which occurs at most once, can
only sit at the head: every element after position 0 has another id. -/
theorem sortDesc_tail_ne {row : List (Nat × ℚ)} {i : Nat}
    (hone : row.countP (fun p => p.1 == i) ≤ 1)
    (hmax : ∀ p ∈ row, p.1 = i → ∀ q ∈ row, q.1 ≠ i → q.2 < p.2) :
    ∀ p ∈ (sortDesc row).drop 1, p.1 ≠ i := by
  intro p hp hpi
  have hsort := sortAsc_pairwise row
  have hperm := sortAsc_perm row
  -- `p` sits in the reversal of `sortAsc row` after the head, i.e. in
  -- `(sortAsc row).dropLast`.
  have hnil : sortAsc row ≠ [] := by
    intro h
    rw [sortDesc, h] at hp
    simp at hp
  have hsplit := List.dropLast_append_getLast hnil
  set z := (sortAsc row).getLast hnil with hz
  have hpmem : p ∈ (sortAsc row).dropLast := by
    have : (sortDesc row).drop 1 = ((sortAsc row).dropLast).reverse := by
      conv_lhs => rw [sortDesc, ← hsplit]
      simp
    rw [this] at hp
    exact List.mem_reverse.1 hp
  have hple : p.2 ≤ z.2 := by
    have := hsplit ▸ hsort
    rcases List.pairwise_append.1 this with ⟨-, -, hcross⟩
    exact hcross p hpmem z (List.mem_singleton_self z)
  have hprow : p ∈ row := hperm.mem_iff.1 (List.dropLast_sublist _ |>.mem hpmem)
  have hzrow : z ∈ row := hperm.mem_iff.1 (List.getLast_mem hnil)
  by_cases hzi : z.1 = i
  · -- two occurrences of id `i`: contradicts `hone`
    have hcount : 2 ≤ (sortAsc row).countP (fun p => p.1 == i) := by
      conv_rhs => rw [← hsplit]
      rw [List.countP_append]
      have h1 : 1 ≤ ((sortAsc row).dropLast).countP (fun p => p.1 == i) :=
        List.countP_pos_iff.2 ⟨p, hpmem, by simp [hpi]⟩
      have h2 : ([z].countP (fun p => p.1 == i)) = 1 := by simp [hzi]
      omega
    rw [hperm.countP_eq] at hcount
    omega
  · exact absurd hple (not_le.2 (hmax p hprow hpi z hzrow hzi))

/-! ### Slice lemmas -/

theorem pySlice1_map {α β : Type} (f : α → β) (l : List α) (stop : Int) :
    pySlice1 (l.map f) stop = (pySlice1 l stop).map f := by
  simp [pySlice1, List.map_take, List.map_drop]

theorem pySlice1_sublist {α : Type} (l : List α) (stop : Int) :
    List.Sublist (pySlice1 l stop) (l.drop 1) := by
  unfold pySlice1
  rw [List.drop_take]
  exact List.take_sublist _ _

theorem length_pySlice1 {l : List Nat} {k : Int} (hk : 0 ≤ k) :
    (pySlice1 l (k + 1)).length = min k.toNat (l.length - 1) := by
  unfold pySlice1
  have hneg : ¬ (k + 1 < 0) := by omega
  rw [if_neg hneg]
  simp only [List.length_drop, List.length_take]
  have : (min (k + 1) (l.length : Int)).toNat = min (k.toNat + 1) l.length := by
    omega
  rw [this]
  omega

theorem pySlice1_eq_nil_of_stop_le_one {α : Type} {l : List α} {stop : Int}
    (h0 : 0 ≤ stop) (h1 : stop ≤ 1) : pySlice1 l stop = [] := by
  unfold pySlice1
  apply List.eq_nil_of_length_eq_zero
  rw [if_neg (by omega)]
  simp only [List.length_drop, List.length_take]
  omega

/-! ### Pipeline lemmas -/

theorem mem_mapM_option {α β : Type} {f : α → Option β} :
    ∀ {l : List α} {ys : List β}, l.mapM f = some ys →
      ∀ y ∈ ys, ∃ x ∈ l, f x = some y := by
  intro l
  induction l with
  | nil =>
    intro ys h y hy
    simp only [List.mapM_nil, Option.pure_def, Option.some.injEq] at h
    subst h
    simp at hy
  | cons x rest ih =>
    intro ys h y hy
    rw [List.mapM_cons] at h
    cases hx : f x with
    | none => rw [hx] at h; simp at h
    | some b =>
      rw [hx] at h
      cases hrest : rest.mapM f with
      | none => rw [hrest] at h; simp at h
      | some bs =>
        rw [hrest] at h
        simp at h
        subst h
        rcases List.mem_cons.1 hy with rfl | hy
        · exact ⟨x, List.mem_cons_self x rest, hx⟩
        · rcases ih hrest y hy with ⟨x', hx', hfx'⟩
          exact ⟨x', List.mem_cons_of_mem x hx', hfx'⟩

/-- When every id of the working row is present in the movies table,
the list comprehension over `distances.index` succeeds and returns the
ids passing the predicate, in order. -/
theorem filteredIndices_eq {rs : RecSys} {pred : Movie → Bool} :
    ∀ {l : List (Nat × ℚ)}, (∀ p ∈ l, (movieById rs p.1).isSome) →
      filteredIndices rs pred l =
        some ((l.filter (fun p => idMatches rs pred p.1)).map (fun p => p.1)) := by
  intro l
  induction l with
  | nil => intro _; simp [filteredIndices]
  | cons p rest ih =>
    intro h
    have hp : (movieById rs p.1).isSome := h p (List.mem_cons_self p rest)
    rcases Option.isSome_iff_exists.1 hp with ⟨m, hm⟩
    have hrest := ih (fun q hq => h q (List.mem_cons_of_mem p hq))
    simp only [filteredIndices, hm, hrest, Option.bind_eq_bind, Option.some_bind,
      Option.some.injEq]
    by_cases hpm : pred m
    · simp [List.filter_cons, idMatches, hm, hpm]
    · simp [List.filter_cons, idMatches, hm, hpm]

/-- `List.contains` on `Nat` lists, as membership. -/
theorem natContains_iff {l : List Nat} {x : Nat} :
    l.contains x = true ↔ x ∈ l :=
  List.elem_iff

/-- Membership in the comprehension result is the predicate itself, for
ids drawn from the list it ranges over. -/
theorem filteredIndices_contains {rs : RecSys} {pred : Movie → Bool}
    {l : List (Nat × ℚ)} {p : Nat × ℚ} (hp : p ∈ l) :
    (((l.filter (fun q => idMatches rs pred q.1)).map (fun q => q.1)).contains p.1)
      = idMatches rs pred p.1 := by
  by_cases hmatch : idMatches rs pred p.1 = true
  · rw [hmatch]
    refine natContains_iff.2 ?_
    exact List.mem_map.2 ⟨p, List.mem_filter.2 ⟨hp, hmatch⟩, rfl⟩
  · rw [Bool.eq_false_iff.2 hmatch, Bool.eq_false_iff]
    intro hc
    rcases List.mem_map.1 (natContains_iff.1 hc) with ⟨q, hq, hq1⟩
    rcases List.mem_filter.1 hq with ⟨-, hqm⟩
    rw [hq1] at hqm
    exact hmatch hqm

/-- The `isin` step preserves every filter-stable property. -/
theorem isinStage_pres {P : List (Nat × ℚ) → Prop}
    (hfilt : ∀ (l : List (Nat × ℚ)) (f : Nat × ℚ → Bool), P l → P (l.filter f))
    {fm : Option (List Nat)} {d : List (Nat × ℚ)} (hP : P d) :
    P (isinStage fm d) := by
  unfold isinStage
  by_cases ht : truthyList fm
  · rw [if_pos ht]; exact hfilt _ _ hP
  · rw [if_neg ht]; exact hP

/-- A per-dimension re-filter preserves every filter-stable property. -/
theorem dimStage_pres {P : List (Nat × ℚ) → Prop}
    (hfilt : ∀ (l : List (Nat × ℚ)) (f : Nat × ℚ → Bool), P l → P (l.filter f))
    {rs : RecSys} {arg : List String} {pred : Movie → Bool}
    {d d' : List (Nat × ℚ)} (hP : P d)
    (h : dimStage rs arg pred d = some d') : P d' := by
  unfold dimStage at h
  by_cases ha : arg.isEmpty
  · rw [if_pos ha] at h
    cases h
    exact hP
  · rw [if_neg ha] at h
    cases hfi : filteredIndices rs pred d with
    | none => rw [hfi] at h; simp at h
    | some fi =>
      rw [hfi] at h
      simp only [Option.bind_eq_bind, Option.some_bind, Option.some.injEq] at h
      rw [← h]
      exact hfilt _ _ hP

/-- Any property preserved by `List.filter` transfers from the sorted
row to every successful `rankedCandidates` result. -/
theorem rankedCandidates_stages (P : List (Nat × ℚ) → Prop)
    (hfilt : ∀ (l : List (Nat × ℚ)) (f : Nat × ℚ → Bool), P l → P (l.filter f))
    {rs : RecSys} {i : Nat} {fm : Option (List Nat)} {g a c : List String}
    {ds : List (Nat × ℚ)}
    (hds : rankedCandidates rs i fm g a c = some ds)
    (hrow : ∀ row, distanceRow rs i = some row → P (sortDesc row)) : P ds := by
  unfold rankedCandidates at hds
  cases h0 : distanceRow rs i with
  | none => rw [h0] at hds; simp at hds
  | some row =>
    rw [h0] at hds
    simp only [Option.bind_eq_bind, Option.some_bind] at hds
    have hP1 : P (isinStage fm (sortDesc row)) :=
      isinStage_pres hfilt (hrow row h0)
    cases h2 : dimStage rs g (genreMatch g) (isinStage fm (sortDesc row)) with
    | none => rw [h2] at hds; simp at hds
    | some d2 =>
      rw [h2] at hds
      simp only [Option.some_bind] at hds
      have hP2 : P d2 := dimStage_pres hfilt hP1 h2
      cases h3 : dimStage rs a (actorMatch a) d2 with
      | none => rw [h3] at hds; simp at hds
      | some d3 =>
        rw [h3] at hds
        simp only [Option.some_bind] at hds
        exact dimStage_pres hfilt (dimStage_pres hfilt hP2 h3) hds
/-! ### Further pipeline lemmas -/

theorem mem_sortDesc {x : Nat × ℚ} {l : List (Nat × ℚ)} :
    x ∈ sortDesc l ↔ x ∈ l := by
  rw [sortDesc, List.mem_reverse]
  exact mem_sortAsc

theorem filter_head?_eq_find? {α : Type} (p : α → Bool) (l : List α) :
    (l.filter p).head? = l.find? p := by
  induction l with
  | nil => rfl
  | cons x rest ih =>
    by_cases hx : p x
    · rw [List.filter_cons_of_pos hx, List.find?_cons_of_pos _ hx]
      rfl
    · rw [List.filter_cons_of_neg hx, List.find?_cons_of_neg _ hx]
      exact ih

theorem length_mapM_option {α β : Type} {f : α → Option β} :
    ∀ {l : List α} {ys : List β}, l.mapM f = some ys → ys.length = l.length := by
  intro l
  induction l with
  | nil =>
    intro ys h
    simp only [List.mapM_nil, Option.pure_def, Option.some.injEq] at h
    simp [← h]
  | cons x rest ih =>
    intro ys h
    rw [List.mapM_cons] at h
    cases hx : f x with
    | none => rw [hx] at h; simp at h
    | some b =>
      rw [hx] at h
      cases hrest : rest.mapM f with
      | none => rw [hrest] at h; simp at h
      | some bs =>
        rw [hrest] at h
        simp at h
        rw [← h]
        simp [ih hrest]

/-- The no-reference-after-the-head property is stable under filtering. -/
theorem noRefTail_filter {i : Nat} :
    ∀ (l : List (Nat × ℚ)) (f : Nat × ℚ → Bool),
      (∀ p ∈ l.drop 1, p.1 ≠ i) → ∀ p ∈ (l.filter f).drop 1, p.1 ≠ i := by
  intro l f h
  cases l with
  | nil => simp
  | cons x rest =>
    have hrest : ∀ p ∈ rest, p.1 ≠ i := by
      intro p hp
      exact h p (by simpa using hp)
    intro p hp
    by_cases hx : f x
    · rw [List.filter_cons_of_pos hx] at hp
      exact hrest p (List.mem_filter.1 (by simpa using hp)).1
    · rw [List.filter_cons_of_neg hx] at hp
      exact hrest p (List.mem_filter.1 (List.mem_of_mem_drop hp)).1

theorem countP_beq_eq_one {l : List Nat} {i : Nat}
    (hnd : l.Nodup) (hmem : i ∈ l) :
    l.countP (fun x => x == i) = 1 := by
  induction l with
  | nil => simp at hmem
  | cons x rest ih =>
    rcases List.nodup_cons.1 hnd with ⟨hx, hrest⟩
    rw [List.countP_cons]
    rcases List.mem_cons.1 hmem with h | hmem2
    · subst h
      have hz : rest.countP (fun y => y == i) = 0 := by
        rw [List.countP_eq_zero]
        intro a ha
        simp only [beq_iff_eq]
        intro hai
        exact hx (hai ▸ ha)
      simp [hz]
    · have hxi : ¬ (x == i) = true := by
        simp only [beq_iff_eq]
        intro hxi
        exact hx (hxi ▸ hmem2)
      simp [ih hrest hmem2, hxi]

/-- A truthy per-dimension re-filter, on a working row whose ids all
resolve, is exactly a filter by the dimension predicate. -/
theorem dimStage_eq {rs : RecSys} {arg : List String} {pred : Movie → Bool}
    {d : List (Nat × ℚ)} (hne : ¬ arg.isEmpty)
    (hl : ∀ p ∈ d, (movieById rs p.1).isSome) :
    dimStage rs arg pred d = some (d.filter (fun p => idMatches rs pred p.1)) := by
  unfold dimStage
  rw [if_neg hne, filteredIndices_eq hl]
  simp only [Option.bind_eq_bind, Option.some_bind, Option.some.injEq]
  exact List.filter_congr (fun p hp => filteredIndices_contains hp)

/-- An empty-argument dimension stage is the identity. -/
theorem dimStage_empty {rs : RecSys} {pred : Movie → Bool}
    {d : List (Nat × ℚ)} : dimStage rs [] pred d = some d := rfl

/-! ### Claim theorems -/

/-- C10: `update_recommendations(title, top_k, genres, actor, country)`
returns exactly `recommendation` called with the same arguments — the
source body is a single delegating call. -/
theorem c10_update_eq_recommendation (rs : RecSys) (t : String) (k : Int)
    (g a c : List String) :
    update_recommendations rs t k g a c = recommendation rs t k g a c := rfl

/-- C6: title resolution takes the first row (in load order) whose
title equals the query — `find?` semantics — and yields the failure
value exactly when no title matches, a failure `recommendation`
propagates (its first statement raises before anything else runs). -/
theorem c6_resolution (rs : RecSys) (t : String) :
    (resolveTitle rs t
        = (rs.movies.find? (fun m => m.title == t)).map (fun m => m.id))
    ∧ ((∀ m ∈ rs.movies, m.title ≠ t) →
        resolveTitle rs t = Option.none
        ∧ ∀ (k : Int) (g a c : List String),
            recommendation rs t k g a c = Option.none) := by
  constructor
  · unfold resolveTitle
    rw [List.head?_map, filter_head?_eq_find?]
  · intro hnone
    have hres : resolveTitle rs t = Option.none := by
      unfold resolveTitle
      rw [List.head?_map, filter_head?_eq_find?]
      rw [List.find?_eq_none.2 (by intro m hm; simpa using hnone m hm)]
      rfl
    refine ⟨hres, ?_⟩
    intro k g a c
    unfold recommendation
    rw [hres]
    rfl

/-- C6 witness: with two movies both titled `T`, resolution returns the
first id (1); resolving a missing title makes `recommendation` fail. -/
theorem c6_witness :
    resolveTitle exDup "T" = some 1
    ∧ recommendation exDup "Z" 5 [] [] [] = Option.none :=
  ⟨((c6_resolution exDup "T").1).trans (by decide),
   ((c6_resolution exDup "Z").2 (by decide)).2 5 [] [] []⟩

/-- C7 counterexample: `"[1]"` is a malformed genre column (its item is
not a record), yet `parse` does not return the empty collection — the
comprehension raises TypeError, which the `except (ValueError,
SyntaxError)` clause does not catch. -/
theorem c7_counterexample :
    parse (some "[1]") = Except.error PyErr.typeError
    ∧ parse (some "[1]") ≠ Except.ok [] := by
  refine ⟨by rfl, ?_⟩
  intro h
  have hcontra : Except.error PyErr.typeError = Except.ok ([] : List PyVal) :=
    (by rfl : parse (some "[1]") = Except.error PyErr.typeError).symm.trans h
  exact absurd hcontra (by simp)

/-- C7 amended: the round-trip and `None` cases hold, and any input the
literal evaluator rejects yields `[]`; but an input that evaluates to a
literal of the wrong shape (e.g. `"[1]"`) raises instead of yielding
`[]`. -/
theorem c7_parse_amended :
    parse (some "[\x7b\x27name\x27: \x27Comedy\x27\x7d, \x7b\x27name\x27: \x27Action\x27\x7d]")
        = Except.ok [PyVal.pyStr "Comedy", PyVal.pyStr "Action"]
    ∧ parse Option.none = Except.ok []
    ∧ (∀ (s : String) (e : PyErr), literal_eval s = Except.error e →
        parse (some s) = Except.ok [])
    ∧ parse (some "[1]") = Except.error PyErr.typeError := by
  refine ⟨by rfl, by rfl, ?_, by rfl⟩
  intro s e h
  simp [parse, h]

/-- C7 witness: a string the literal evaluator rejects yields `[]`. -/
theorem c7_witness : parse (some "][") = Except.ok [] :=
  c7_parse_amended.2.2.1 "][" PyErr.valueOrSyntaxError (by rfl)

/-- C8 counterexample: looking up a title absent from the catalog does
not return the absent value — the IndexError branch returns the empty
string, which the claim says must be distinguished from absence. -/
theorem c8_counterexample :
    get_overview exTie "Z" = some ""
    ∧ get_overview exTie "Z" ≠ Option.none := by
  refine ⟨by rfl, ?_⟩
  intro h
  have hcontra : some "" = (Option.none : Option String) :=
    (by rfl : get_overview exTie "Z" = some "").symm.trans h
  exact absurd hcontra (by simp)

/-- C8 amended: the synopsis accessor returns the empty string (not the
absent value) when the title is not found; the absent value only when
the first matching row stores a null synopsis; and the stored text
unchanged otherwise. -/
theorem c8_overview_amended (rs : RecSys) (t : String) :
    ((∀ m ∈ rs.movies, m.title ≠ t) → get_overview rs t = some "")
    ∧ (∀ m : Movie, rs.movies.find? (fun m => m.title == t) = some m →
        m.overview = Option.none → get_overview rs t = Option.none)
    ∧ (∀ (m : Movie) (o : String),
        rs.movies.find? (fun m => m.title == t) = some m →
        m.overview = some o → get_overview rs t = some o) := by
  have hkey : ((rs.movies.filter (fun m => m.title == t)).map
      (fun m => m.overview)).head?
      = (rs.movies.find? (fun m => m.title == t)).map (fun m => m.overview) := by
    rw [List.head?_map, filter_head?_eq_find?]
  refine ⟨?_, ?_, ?_⟩
  · intro hnone
    unfold get_overview
    rw [hkey, List.find?_eq_none.2 (by intro m hm; simpa using hnone m hm)]
    rfl
  · intro m hm hov
    unfold get_overview
    rw [hkey, hm]
    simp [hov]
  · intro m o hm hov
    unfold get_overview
    rw [hkey, hm]
    simp [hov]

/-- C8 witness: the three branches at concrete inputs — missing title,
null synopsis, present synopsis. -/
theorem c8_witness :
    get_overview exTie "Z" = some ""
    ∧ get_overview exNull "N" = Option.none
    ∧ get_overview exTie "A" = some "a" :=
  ⟨(c8_overview_amended exTie "Z").1 (by decide),
   (c8_overview_amended exNull "N").2.1 (mov 1 "N" [] "[]" Option.none)
     (by rfl) (by rfl),
   (c8_overview_amended exTie "A").2.2 (mov 1 "A" [] "[]" (some "a")) "a"
     (by rfl) (by rfl)⟩

/-- C9 counterexample: when the underlying HTTP call raises for some
title, the batch operation raises too (omdb.py has no try/except), so
the placeholder is not substituted and no result is produced. -/
theorem c9_counterexample :
    get_posters (fun _ => HttpOutcome.raises) ["A"] = Except.error ()
    ∧ ∀ ps : List String,
        get_posters (fun _ => HttpOutcome.raises) ["A"] ≠ Except.ok ps := by
  refine ⟨by rfl, ?_⟩
  intro ps h
  simpa using ((by rfl : get_posters (fun _ => HttpOutcome.raises) ["A"]
    = Except.error ()).symm.trans h)

/-- C9 amended: as long as no lookup in the batch raises, the batch
never fails: it yields exactly one URL per title in order, the looked-up
poster where one came back truthy and the placeholder for that title
alone otherwise. -/
theorem c9_get_posters_amended (ω : String → HttpOutcome) (titles : List String)
    (h : ∀ t ∈ titles, ω t ≠ HttpOutcome.raises) :
    get_posters ω titles = Except.ok (titles.map (posterOf ω)) := by
  induction titles with
  | nil => rfl
  | cons t rest ih =>
    have ht := h t (List.mem_cons_self t rest)
    have hrest := ih (fun u hu => h u (List.mem_cons_of_mem t hu))
    have himg : ∃ po, get_image_path ω t = Except.ok po := by
      unfold get_image_path
      cases hω : ω t with
      | raises => exact absurd hω ht
      | response status poster =>
        dsimp only
        by_cases hs : (status == 200) = true
        · rw [if_pos hs]
          cases poster with
          | none => exact ⟨Option.none, rfl⟩
          | some p => exact ⟨some p, rfl⟩
        · rw [if_neg hs]
          exact ⟨Option.none, rfl⟩
    rcases himg with ⟨po, hpo⟩
    cases po with
    | none => simp [get_posters, hpo, hrest, posterOf]
    | some p => simp [get_posters, hpo, hrest, posterOf]

/-- C9 witness: a non-raising environment over two titles — one poster
found, one degraded to the placeholder — produces one URL per title. -/
theorem c9_witness :
    get_posters omegaOk ["A", "B"] = Except.ok ["http://poster/a", placeholderUrl] :=
  (c9_get_posters_amended omegaOk ["A", "B"] (by decide)).trans (by rfl)

theorem countP_not_add {α : Type} (p : α → Bool) (l : List α) :
    l.countP (fun a => !(p a)) + l.countP p = l.length := by
  induction l with
  | nil => rfl
  | cons x rest ih =>
    rw [List.countP_cons, List.countP_cons, List.length_cons]
    by_cases hx : p x = true
    · simp only [hx]
      simp
      omega
    · simp only [Bool.not_eq_true] at hx
      simp only [hx]
      simp
      omega

/-- C1 counterexample: with a score tie between the reference item and
another item, the descending sort (reverse of a stable ascending
argsort) places the *other* item at position 0; the slice drops it and
the result contains the reference title itself. -/
theorem c1_counterexample :
    recommendation exTie "A" 5 [] [] [] = some ["A"]
    ∧ "A" ∈ ["A"] := ⟨by decide, by decide⟩

/-- C1 amended: the code drops position 0 of the filtered ranking, not
the reference id itself; the reference title is guaranteed absent only
when every other entry of its similarity row scores strictly below its
self-entries, the self id occurs at most once in the row, and no other
movie shares the queried title. -/
theorem c1_no_self_amended (rs : RecSys) (t : String) (k : Int)
    (g a c : List String) (i : Nat) (row : List (Nat × ℚ)) (titles : List String)
    (hres : resolveTitle rs t = some i)
    (hrow : distanceRow rs i = some row)
    (hone : row.countP (fun p => p.1 == i) ≤ 1)
    (hmax : ∀ p ∈ row, p.1 = i → ∀ q ∈ row, q.1 ≠ i → q.2 < p.2)
    (htitle : ∀ m ∈ rs.movies, m.id ≠ i → m.title ≠ t)
    (hrun : recommendation rs t k g a c = some titles) :
    t ∉ titles := by
  intro hmem
  unfold recommendation at hrun
  rw [hres] at hrun
  simp only [Option.bind_eq_bind, Option.some_bind] at hrun
  cases htop : get_top_k_movies rs i k (selectFiltered rs g a c) g a c with
  | none => rw [htop] at hrun; simp at hrun
  | some top =>
    rw [htop] at hrun
    simp only [Option.some_bind] at hrun
    have hitop : i ∉ top := by
      unfold get_top_k_movies at htop
      cases hrc : rankedCandidates rs i (selectFiltered rs g a c) g a c with
      | none => rw [hrc] at htop; simp at htop
      | some ds =>
        rw [hrc] at htop
        simp only [Option.map_some'] at htop
        have htop' : top = pySlice1 (ds.map (fun p => p.1)) (k + 1) :=
          (Option.some.inj htop).symm
        intro hi
        have hP : ∀ p ∈ ds.drop 1, p.1 ≠ i :=
          rankedCandidates_stages (fun l => ∀ p ∈ l.drop 1, p.1 ≠ i)
            noRefTail_filter hrc
            (fun row' hrow' => by
              rw [hrow] at hrow'
              cases hrow'
              exact sortDesc_tail_ne hone hmax)
        rw [htop'] at hi
        have hi' : i ∈ (ds.map (fun p => p.1)).drop 1 :=
          (pySlice1_sublist (ds.map (fun p => p.1)) (k + 1)).subset hi
        rw [← List.map_drop] at hi'
        rcases List.mem_map.1 hi' with ⟨p, hp, hpi⟩
        exact hP p hp hpi
    rcases mem_mapM_option hrun t hmem with ⟨j, hj, hfj⟩
    cases hmb : movieById rs j with
    | none => rw [hmb] at hfj; simp at hfj
    | some m =>
      rw [hmb] at hfj
      simp only [Option.map_some', Option.some.injEq] at hfj
      have hmmem : m ∈ rs.movies := List.mem_of_find?_eq_some hmb
      have hmid : m.id = j := by
        have hfind := List.find?_some hmb
        simpa using hfind
      have hji : j ≠ i := fun hj' => hitop (hj' ▸ hj)
      exact htitle m hmmem (by rw [hmid]; exact hji) hfj

/-- C1 witness: with a strict self-maximum, the reference title is
indeed absent from the result. -/
theorem c1_witness : "A" ∉ (["B"] : List String) :=
  c1_no_self_amended exStrict "A" 5 [] [] [] 1 [(1, 9), (2, 5)] ["B"]
    (by decide) (by decide) (by decide) (by decide) (by decide) (by decide)

/-- C3 counterexample: ids 2 (`B`) and 3 (`C`) tie at score 1 in the
reference row; the claim's ascending-identifier tie-break predicts
`["B", "C"]`, but the code returns `["C", "B"]` (reverse storage order,
the reversal of a stable ascending argsort). -/
theorem c3_counterexample :
    recommendation exTriple "A" 5 [] [] [] = some ["C", "B"]
    ∧ distanceRow exTriple 1 = some [(1, 10), (2, 1), (3, 1)]
    ∧ (["C", "B"] : List String) ≠ ["B", "C"] := ⟨by decide, by decide, by decide⟩

/-- C3 amended: the returned ids are a slice of the filtered ranking,
which is sorted by score non-increasing; the tie order is the reverse
of storage order, not ascending identifier. -/
theorem c3_ordering_amended (rs : RecSys) (i : Nat) (k : Int)
    (fm : Option (List Nat)) (g a c : List String) (ds : List (Nat × ℚ))
    (hds : rankedCandidates rs i fm g a c = some ds) :
    get_top_k_movies rs i k fm g a c
        = some ((pySlice1 ds (k + 1)).map (fun p => p.1))
    ∧ (pySlice1 ds (k + 1)).Pairwise (fun p q => q.2 ≤ p.2) := by
  constructor
  · unfold get_top_k_movies
    rw [hds]
    simp only [Option.map_some']
    rw [pySlice1_map]
  · have hP : ds.Pairwise (fun p q => q.2 ≤ p.2) :=
      rankedCandidates_stages (fun l => l.Pairwise (fun p q => q.2 ≤ p.2))
        (fun l f h => List.Pairwise.filter f h) hds
        (fun row _ => sortDesc_pairwise row)
    exact List.Pairwise.sublist
      ((pySlice1_sublist ds (k + 1)).trans (List.drop_sublist 1 ds)) hP

/-- C3 witness: the concrete sorted row of `exTriple`, its slice, and
the non-increasing ordering of the scores of the returned items. -/
theorem c3_witness :
    get_top_k_movies exTriple 1 5 Option.none [] [] []
        = some ((pySlice1 [(1, (10 : ℚ)), (3, 1), (2, 1)] 6).map (fun p => p.1))
    ∧ (pySlice1 [(1, (10 : ℚ)), (3, 1), (2, 1)] 6).Pairwise
        (fun p q => q.2 ≤ p.2) :=
  c3_ordering_amended exTriple 1 5 Option.none [] [] []
    [(1, 10), (3, 1), (2, 1)] (by decide)

/-- C4 counterexample: the genre filter excludes the reference movie
itself from the candidate row, so the position-0 slice throws away an
eligible candidate: one candidate is eligible, `k = 5`, yet the result
is empty instead of having length `min 5 1 = 1`. -/
theorem c4_counterexample :
    recommendation exGenreOnly "A" 5 ["Comedy"] [] [] = some []
    ∧ (exGenreOnly.movies.filter
        (fun m => !(m.id == 1) && genreMatch ["Comedy"] m)).length = 1 :=
  ⟨by decide, by decide⟩

/-- C4 amended: when the reference id itself survives the filters (it
appears in the filtered candidate row) and the row ids are distinct,
the result length is `min k (number of surviving candidates other than
the reference)`. -/
theorem c4_length_amended (rs : RecSys) (t : String) (k : Int)
    (g a c : List String) (i : Nat) (ds : List (Nat × ℚ)) (titles : List String)
    (hk : 0 ≤ k)
    (hres : resolveTitle rs t = some i)
    (hds : rankedCandidates rs i (selectFiltered rs g a c) g a c = some ds)
    (href : i ∈ ds.map (fun p => p.1))
    (hnd : (ds.map (fun p => p.1)).Nodup)
    (hrun : recommendation rs t k g a c = some titles) :
    titles.length = min k.toNat ((ds.filter (fun p => !(p.1 == i))).length) := by
  unfold recommendation at hrun
  rw [hres] at hrun
  simp only [Option.bind_eq_bind, Option.some_bind] at hrun
  have htop : get_top_k_movies rs i k (selectFiltered rs g a c) g a c
      = some (pySlice1 (ds.map (fun p => p.1)) (k + 1)) := by
    unfold get_top_k_movies
    rw [hds]
    simp only [Option.map_some']
  rw [htop] at hrun
  simp only [Option.some_bind] at hrun
  have hlen := length_mapM_option hrun
  rw [hlen, length_pySlice1 hk, List.length_map]
  have hcount1 : ds.countP (fun p => p.1 == i) = 1 := by
    have h1 : (ds.map (fun p => p.1)).countP (fun x => x == i) = 1 :=
      countP_beq_eq_one hnd href
    rw [List.countP_map] at h1
    exact h1
  have hsum := countP_not_add (fun p => p.1 == i) ds
  have hflen : (ds.filter (fun p => !(p.1 == i))).length
      = ds.countP (fun p => !(p.1 == i)) :=
    (List.countP_eq_length_filter _ _).symm
  rw [hflen]
  omega

/-- C4 witness: without filters the reference survives, and the result
length is the minimum of `k` and the remaining candidate count. -/
theorem c4_witness :
    (["B"] : List String).length
      = min (5 : Int).toNat
          (([(1, (9 : ℚ)), (2, 5)].filter (fun p => !(p.1 == 1))).length) :=
  c4_length_amended exStrict "A" 5 [] [] [] 1 [(1, 9), (2, 5)] ["B"]
    (by decide) (by decide) (by decide) (by decide) (by decide) (by decide)

/-- C5 counterexample: `top_k = -2` is negative, yet the result is not
empty — the Python slice `[1 : top_k + 1]` interprets a negative stop
relative to the end of the row. -/
theorem c5_counterexample :
    recommendation exTriple "A" (-2) [] [] [] = some ["C"]
    ∧ (some ["C"] : Option (List String)) ≠ some [] := ⟨by decide, by decide⟩

/-- C5 amended: `top_k = 0` and `top_k = -1` (the two values whose
slice stop lies in `[0, 1]`) return the empty sequence without raising;
more negative values fall under Python end-relative slicing and can
return items. -/
theorem c5_topk_amended (rs : RecSys) (t : String) (k : Int)
    (g a c : List String) (titles : List String)
    (hk : k = 0 ∨ k = -1)
    (hrun : recommendation rs t k g a c = some titles) :
    titles = [] := by
  unfold recommendation at hrun
  cases hres : resolveTitle rs t with
  | none => rw [hres] at hrun; simp at hrun
  | some i =>
    rw [hres] at hrun
    simp only [Option.bind_eq_bind, Option.some_bind] at hrun
    cases hrc : rankedCandidates rs i (selectFiltered rs g a c) g a c with
    | none =>
      unfold get_top_k_movies at hrun
      rw [hrc] at hrun
      simp at hrun
    | some ds =>
      unfold get_top_k_movies at hrun
      rw [hrc] at hrun
      simp only [Option.map_some', Option.some_bind] at hrun
      have hnil : pySlice1 (ds.map (fun p => p.1)) (k + 1) = [] :=
        pySlice1_eq_nil_of_stop_le_one (by omega) (by omega)
      rw [hnil] at hrun
      simp only [List.mapM_nil, Option.pure_def, Option.some.injEq] at hrun
      exact hrun.symm

/-- C5 witness: `top_k = 0` yields the empty result. -/
theorem c5_witness : ([] : List String) = [] :=
  c5_topk_amended exStrict "A" 0 [] [] [] [] (Or.inl rfl) (by decide)

/-- C2 counterexample: with both a genre and a country filter, the
union pre-filter admits ids 1, 2 and 3 (so the claim's candidate set
holds non-reference ids 2 and 3 and `k = 5` leaves room), yet the
result is empty — the per-dimension re-filters inside the ranking step
narrow the candidate set further, to the intersection. -/
theorem c2_counterexample :
    filter_movies_by_genre_and_country exGC ["Comedy"] ["X"] = [1, 2, 3]
    ∧ recommendation exGC "A" 5 ["Comedy"] [] ["X"] = some []
    ∧ (2 : Nat) ∈ filter_movies_by_genre_and_country exGC ["Comedy"] ["X"] :=
  ⟨by decide, by decide, by decide⟩

/-- C2 amended: when both a genre and a country filter are supplied
(actor absent) and every row id resolves in the catalog, the candidate
row the slice draws from is the similarity-sorted row narrowed to the
ids matching the genre test AND the country test — the intersection,
not the union; the union pre-filter is further narrowed by the
per-dimension re-filters. -/
theorem c2_candidates_amended (rs : RecSys) (gs cs : List String) (i : Nat)
    (row ds : List (Nat × ℚ))
    (hg : gs ≠ []) (hc : cs ≠ [])
    (hrow : distanceRow rs i = some row)
    (hlook : ∀ p ∈ row, (movieById rs p.1).isSome)
    (hds : rankedCandidates rs i (selectFiltered rs gs [] cs) gs [] cs = some ds) :
    ds = (sortDesc row).filter
      (fun p => idMatches rs (fun m => genreMatch gs m && countryMatch cs m) p.1) := by
  have hgne : ¬ gs.isEmpty = true := fun h => hg (List.isEmpty_iff.1 h)
  have hcne : ¬ cs.isEmpty = true := fun h => hc (List.isEmpty_iff.1 h)
  have hsel : selectFiltered rs gs [] cs
      = some (filter_movies_by_genre_and_country rs gs cs) := by
    unfold selectFiltered
    rw [if_pos (by simp [hgne, hcne])]
  rw [hsel] at hds
  unfold rankedCandidates at hds
  rw [hrow] at hds
  simp only [Option.bind_eq_bind, Option.some_bind] at hds
  have hl1 : ∀ p ∈ isinStage (some (filter_movies_by_genre_and_country rs gs cs))
      (sortDesc row), (movieById rs p.1).isSome := by
    intro p hp
    apply hlook
    apply mem_sortDesc.1
    revert hp
    unfold isinStage
    by_cases ht : truthyList (some (filter_movies_by_genre_and_country rs gs cs))
    · rw [if_pos ht]
      intro hp
      exact (List.mem_filter.1 hp).1
    · rw [if_neg ht]
      intro hp
      exact hp
  rw [dimStage_eq hgne hl1] at hds
  simp only [Option.some_bind] at hds
  rw [dimStage_empty] at hds
  simp only [Option.some_bind] at hds
  have hl2 : ∀ p ∈ (isinStage (some (filter_movies_by_genre_and_country rs gs cs))
      (sortDesc row)).filter (fun p => idMatches rs (genreMatch gs) p.1),
      (movieById rs p.1).isSome :=
    fun p hp => hl1 p (List.mem_filter.1 hp).1
  rw [dimStage_eq hcne hl2] at hds
  have hds' : ds = ((isinStage (some (filter_movies_by_genre_and_country rs gs cs))
      (sortDesc row)).filter (fun p => idMatches rs (genreMatch gs) p.1)).filter
      (fun p => idMatches rs (countryMatch cs) p.1) := (Option.some.inj hds).symm
  rw [hds', List.filter_filter]
  unfold isinStage
  by_cases ht : truthyList (some (filter_movies_by_genre_and_country rs gs cs))
  · rw [if_pos ht, List.filter_filter]
    apply List.filter_congr
    intro p hp
    have hpr : p ∈ row := mem_sortDesc.1 hp
    rcases Option.isSome_iff_exists.1 (hlook p hpr) with ⟨m, hm⟩
    have hmid : m.id = p.1 := by
      have hfind := List.find?_some hm
      simpa using hfind
    have hmm : m ∈ rs.movies := List.mem_of_find?_eq_some hm
    have hUmem : genreMatch gs m = true →
        p.1 ∈ filter_movies_by_genre_and_country rs gs cs := by
      intro hgm
      unfold filter_movies_by_genre_and_country
      exact List.mem_map.2 ⟨m, List.mem_filter.2 ⟨hmm, by simp [hgm]⟩, hmid⟩
    simp only [idMatches, hm]
    cases hgm : genreMatch gs m with
    | false => simp [hgm]
    | true => simp [hgm, hUmem hgm]
  · rw [if_neg ht]
    apply List.filter_congr
    intro p hp
    rcases Option.isSome_iff_exists.1 (hlook p (mem_sortDesc.1 hp)) with ⟨m, hm⟩
    simp only [idMatches, hm]
    exact Bool.and_comm _ _

/-- C2 witness: on `exGC`, the intersection of the genre and country
tests is empty, and the candidate row the code computes is empty too. -/
theorem c2_witness :
    ([] : List (Nat × ℚ)) = (sortDesc [(1, (9 : ℚ)), (2, 5), (3, 3)]).filter
      (fun p => idMatches exGC
        (fun m => genreMatch ["Comedy"] m && countryMatch ["X"] m) p.1) :=
  c2_candidates_amended exGC ["Comedy"] ["X"] 1 [(1, 9), (2, 5), (3, 3)] []
    (by decide) (by decide) (by decide) (by decide) (by decide)

end DS14
